import Mathlib

/-!
Verification development for the A-ContentAI content studio.

The definitions below are a shallow embedding of the repository's
pipeline code: the JSON-cleaning and planning helpers and the
generation/extraction logic of the service layer (`src/unnamed/part_002`),
and the sequencer / store logic of the App component
(`src/components/StudioControls.tsx`): `handleGenerate`, `addToHistory`
and `handleRegenerate`.  External calls (the hosted model, the clock)
are passed in as explicit oracle arguments; JavaScript strings are
Lean `String`s; thrown JS errors are modelled as an explicit error type
carried in `Except`.
-/

namespace AContentAI

/-! ## String helpers (JS `indexOf` / `lastIndexOf` / `includes`) -/

/-- Index of the first occurrence of `c` in `l` (JS `indexOf`, with
`none` standing for the JS sentinel `-1`). -/
def firstIdx (c : Char) : List Char → Option Nat
  | [] => none
  | x :: xs => if x = c then some 0 else (firstIdx c xs).map (· + 1)

/-- Index of the last occurrence of `c` in `l` (JS `lastIndexOf`). -/
def lastIdx (c : Char) (l : List Char) : Option Nat :=
  (firstIdx c l.reverse).map (fun i => l.length - 1 - i)

/-- JS `String.prototype.includes`, on character lists. -/
def containsSub (pat : List Char) : List Char → Bool
  | [] => pat.isEmpty
  | x :: xs => (if (x :: xs).take pat.length = pat then true else containsSub pat xs)

/-- JS `String.prototype.includes`. -/
def strContains (s pat : String) : Bool :=
  containsSub pat.toList s.toList

/-- One step of JS `text.replace(/pat/g, '')` for a literal pattern:
scan left to right, deleting each non-overlapping occurrence and
continuing after it.  The fuel argument (instantiated with the input
length, an upper bound on the number of steps) keeps the recursion
structural. -/
def eraseAllFuel (pat : List Char) : Nat → List Char → List Char
  | 0, l => l
  | _, [] => []
  | fuel + 1, x :: xs =>
    if pat ≠ [] ∧ (x :: xs).take pat.length = pat then
      eraseAllFuel pat fuel ((x :: xs).drop pat.length)
    else x :: eraseAllFuel pat fuel xs

/-- JS `text.replace(/pat/g, '')` for a literal pattern. -/
def eraseAll (pat l : List Char) : List Char :=
  eraseAllFuel pat l.length l

/-- JS whitespace trimmed by `String.prototype.trim` (the cases that
matter here: space, tab, LF, CR). -/
def isJsWs (c : Char) : Bool :=
  c = ' ' ∨ c = '\t' ∨ c = '\n' ∨ c = '\x0d'

/-- JS `String.prototype.trim`. -/
def jsTrim (l : List Char) : List Char :=
  ((l.dropWhile isJsWs).reverse.dropWhile isJsWs).reverse

/-! ## `cleanJson` (src/unnamed/part_002, lines 8-19) -/

/-- Embeds `cleanJson`: take the substring from the first `[` to the last
`]` (inclusive) when such a pair exists in order; otherwise strip
markdown fences and trim. -/
def cleanJson (text : String) : String :=
  let cs := text.toList
  match firstIdx '[' cs, lastIdx ']' cs with
  | some firstOpen, some lastClose =>
    if firstOpen < lastClose then
      ((cs.drop firstOpen).take (lastClose + 1 - firstOpen)).asString
    else
      (jsTrim (eraseAll "```".toList (eraseAll "```json".toList cs))).asString
  | _, _ =>
    (jsTrim (eraseAll "```".toList (eraseAll "```json".toList cs))).asString

/-! ## A model of JS `JSON.parse`

`analyzeAndPlanAssets` hands the cleaned text to `JSON.parse` and casts
the result without any shape validation.  We model `JSON.parse` by an
executable recursive-descent parser over the JSON grammar; numeric
lexemes are kept as raw strings (their floating-point value is never
inspected by the code under verification). -/

inductive Json where
  | null : Json
  | bool (b : Bool) : Json
  | num (lexeme : String) : Json
  | str (s : String) : Json
  | arr (elems : List Json) : Json
  | obj (members : List (String × Json)) : Json

/-- JSON insignificant whitespace. -/
def skipWs : List Char → List Char
  | [] => []
  | c :: rest =>
    if c = ' ' ∨ c = '\t' ∨ c = '\n' ∨ c = '\x0d' then skipWs rest else c :: rest

def hexVal : Char → Option Nat
  | c =>
    if '0' ≤ c ∧ c ≤ '9' then some (c.toNat - '0'.toNat)
    else if 'a' ≤ c ∧ c ≤ 'f' then some (c.toNat - 'a'.toNat + 10)
    else if 'A' ≤ c ∧ c ≤ 'F' then some (c.toNat - 'A'.toNat + 10)
    else none

def escChar : Char → Option Char
  | '"' => some '"'
  | '\\' => some '\\'
  | '/' => some '/'
  | 'b' => some '\x08'
  | 'f' => some '\x0c'
  | 'n' => some '\n'
  | 'r' => some '\x0d'
  | 't' => some '\t'
  | _ => none

/-- Body of a JSON string literal (after the opening quote). -/
def parseStringBody : List Char → List Char → Option (String × List Char)
  | [], _ => none
  | '"' :: rest, acc => some (acc.reverse.asString, rest)
  | '\\' :: 'u' :: a :: b :: c :: d :: rest, acc =>
    match hexVal a, hexVal b, hexVal c, hexVal d with
    | some ha, some hb, some hc, some hd =>
      parseStringBody rest (Char.ofNat (((ha * 16 + hb) * 16 + hc) * 16 + hd) :: acc)
    | _, _, _, _ => none
  | '\\' :: e :: rest, acc =>
    match escChar e with
    | some ec => parseStringBody rest (ec :: acc)
    | none => none
  | c :: rest, acc =>
    if c.toNat < 32 then none else parseStringBody rest (c :: acc)

def spanDigits (l : List Char) : List Char × List Char :=
  (l.takeWhile Char.isDigit, l.dropWhile Char.isDigit)

/-- Fractional part of a JSON number. -/
def parseFrac : List Char → Option (List Char × List Char)
  | '.' :: rest =>
    let p := spanDigits rest
    if p.1 = [] then none else some ('.' :: p.1, p.2)
  | l => some ([], l)

/-- Exponent part of a JSON number. -/
def parseExp : List Char → Option (List Char × List Char)
  | c :: rest =>
    if c = 'e' ∨ c = 'E' then
      let sgnRest : List Char × List Char :=
        match rest with
        | s :: r2 => if s = '+' ∨ s = '-' then ([s], r2) else ([], s :: r2)
        | [] => ([], [])
      let p := spanDigits sgnRest.2
      if p.1 = [] then none else some (c :: (sgnRest.1 ++ p.1), p.2)
    else some ([], c :: rest)
  | [] => some ([], [])

/-- A JSON number lexeme: `-? int frac? exp?` with the strict JSON
integer grammar (no leading zeros). -/
def parseNumber (l : List Char) : Option (String × List Char) :=
  let negRest : List Char × List Char :=
    match l with
    | '-' :: rest => (['-'], rest)
    | _ => ([], l)
  match negRest.2 with
  | [] => none
  | c :: rest =>
    let intPart : Option (List Char × List Char) :=
      if c = '0' then some (['0'], rest)
      else if c.isDigit then
        let p := spanDigits rest
        some (c :: p.1, p.2)
      else none
    match intPart with
    | none => none
    | some (ip, rest2) =>
      match parseFrac rest2 with
      | none => none
      | some (fp, rest3) =>
        match parseExp rest3 with
        | none => none
        | some (ep, rest4) =>
          some ((negRest.1 ++ ip ++ fp ++ ep).asString, rest4)

mutual

def parseValue : Nat → List Char → Option (Json × List Char)
  | 0, _ => none
  | fuel + 1, l =>
    match skipWs l with
    | [] => none
    | c :: rest =>
      if c = '"' then (parseStringBody rest []).map (fun p => (Json.str p.1, p.2))
      else if c = '[' then
        match skipWs rest with
        | ']' :: rest2 => some (Json.arr [], rest2)
        | other => (parseElems fuel other).map (fun p => (Json.arr p.1, p.2))
      else if c = '\x7b' then
        match skipWs rest with
        | '\x7d' :: rest2 => some (Json.obj [], rest2)
        | other => (parseMembers fuel other).map (fun p => (Json.obj p.1, p.2))
      else if c = 't' then
        match rest with
        | 'r' :: 'u' :: 'e' :: rest2 => some (Json.bool true, rest2)
        | _ => none
      else if c = 'f' then
        match rest with
        | 'a' :: 'l' :: 's' :: 'e' :: rest2 => some (Json.bool false, rest2)
        | _ => none
      else if c = 'n' then
        match rest with
        | 'u' :: 'l' :: 'l' :: rest2 => some (Json.null, rest2)
        | _ => none
      else (parseNumber (c :: rest)).map (fun p => (Json.num p.1, p.2))

def parseElems : Nat → List Char → Option (List Json × List Char)
  | 0, _ => none
  | fuel + 1, l =>
    match parseValue fuel l with
    | none => none
    | some (v, rest) =>
      match skipWs rest with
      | ',' :: rest2 => (parseElems fuel rest2).map (fun p => (v :: p.1, p.2))
      | ']' :: rest2 => some ([v], rest2)
      | _ => none

def parseMembers : Nat → List Char → Option (List (String × Json) × List Char)
  | 0, _ => none
  | fuel + 1, l =>
    match skipWs l with
    | '"' :: rest =>
      match parseStringBody rest [] with
      | none => none
      | some (k, rest2) =>
        match skipWs rest2 with
        | ':' :: rest3 =>
          match parseValue fuel rest3 with
          | none => none
          | some (v, rest4) =>
            match skipWs rest4 with
            | ',' :: rest5 => (parseMembers fuel rest5).map (fun p => ((k, v) :: p.1, p.2))
            | '\x7d' :: rest5 => some ([(k, v)], rest5)
            | _ => none
        | _ => none
    | _ => none

end

/-- Model of JS `JSON.parse`: parse one value, then accept only if at
most trailing whitespace remains. -/
def jsonParse (s : String) : Option Json :=
  match parseValue (2 * s.length + 2) s.toList with
  | some (v, rest) => if skipWs rest = [] then some v else none
  | none => none

/-! ## JS errors and the capability boundary -/

/-- A thrown JS error, as the service code observes it: its `message`
(possibly the empty string) and an optional `status` field (the
`@google/genai` SDK sets `status` on API errors). -/
structure JsError where
  message : String
  status : Option String
deriving DecidableEq

/-- `error.message || JSON.stringify(error)`: an `Error`'s own enumerable
properties are empty, so `JSON.stringify` of it yields the two-character
object literal. -/
def errMsg (e : JsError) : String :=
  if e.message = "" then "\x7b\x7d" else e.message

/-! ## `analyzeAndPlanAssets` (src/unnamed/part_002, lines 57-199)

The capability call itself is an oracle argument: it either throws, or
returns an optional response text (`response.text` may be `undefined`).
Everything after the call is embedded from the source: the falsy-text
guard, `cleanJson`, `JSON.parse` with no shape validation, and the
nested `try`/`catch` pair under which every failure is re-thrown as the
single planning-failure error. -/

def planningFailedMsg : String := "Failed to analyze product context."

/-- Embeds `analyzeAndPlanAssets`, starting from the capability
response.  Note the `as PromptItem[]` cast in the source performs no
runtime check: whatever `JSON.parse` produced is returned. -/
def analyzeAndPlanAssets (capability : Except JsError (Option String)) :
    Except String Json :=
  match capability with
  | .error _ => .error planningFailedMsg
  | .ok none => .error planningFailedMsg
  | .ok (some t) =>
    if t = "" then .error planningFailedMsg
    else
      match jsonParse (cleanJson t) with
      | some v => .ok v
      | none => .error planningFailedMsg

/-! ## `extractImageFromResponse` (src/unnamed/part_002, lines 423-441) -/

/-- One content part of a capability response.  `inlineData` models
`part.inlineData?.data`; the code only acts on parts whose data / text
is truthy (present and non-empty), which the helpers below reproduce. -/
structure RespPart where
  inlineData : Option String
  text : Option String
deriving DecidableEq

/-- Truthy inline image data of a part (`part.inlineData && part.inlineData.data`). -/
def partImage (p : RespPart) : Option String :=
  match p.inlineData with
  | some d => if d = "" then none else some d
  | none => none

/-- Truthy text of a part (`p.text` as used by `parts.find`). -/
def partText (p : RespPart) : Option String :=
  match p.text with
  | some t => if t = "" then none else some t
  | none => none

/-- A capability generation response:
`response.candidates?.[0]?.content?.parts`, collapsed to the optional
part list the extraction code reads. -/
structure GenResponse where
  parts : Option (List RespPart)
deriving DecidableEq

def refusalMsg (reason : String) : String :=
  "Model refused generation: " ++ reason

/-- Embeds `extractImageFromResponse`: first truthy inline image wins;
otherwise the first truthy text part is reported as a refusal;
otherwise a generic no-image error. -/
def extractImageFromResponse (r : GenResponse) : Except JsError String :=
  match r.parts with
  | none => .error ⟨"No content generated", none⟩
  | some parts =>
    match parts.findSome? partImage with
    | some d => .ok d
    | none =>
      match parts.findSome? partText with
      | some t => .error ⟨refusalMsg t, none⟩
      | none => .error ⟨"Model did not return an image.", none⟩

/-! ## `generateMarketingAsset` (src/unnamed/part_002, lines 362-419) -/

/-- The quota / rate-limit test of the `catch` block. -/
def isQuotaSignal (e : JsError) : Bool :=
  strContains (errMsg e) "429" ||
  strContains (errMsg e) "quota" ||
  strContains (errMsg e) "RESOURCE_EXHAUSTED" ||
  e.status == some "RESOURCE_EXHAUSTED"

/-- The fixed wrapper added around the caller's prompt. -/
def genRules (prompt : String) : String :=
  "\n    " ++ prompt ++ "\n    \n    CRITICAL GENERATION RULES:" ++
  "\n    1. **Text Rendering**: If you can, render the text provided." ++
  "\n    2. **Product Fidelity (ZERO TOLERANCE)**: " ++
  "\n       - The main product(s) in the image MUST be visually identical to the source image provided." ++
  "\n       - Do NOT redraw the packaging or labels." ++
  "\n       - Do NOT hallucinate new text onto the bottle itself." ++
  "\n       - Keep the original label text exactly as it is." ++
  "\n    3. **A+ Quality**: Commercial studio quality lighting.\n  "

/-- Suffix appended to the prompt on the fallback (flash) call. -/
def qualityHint : String := " (High quality photorealistic product photography)"

inductive Tier where
  | pro : Tier
  | flash : Tier
deriving DecidableEq

/-- One observed call to the image-generation capability. -/
structure CallRec where
  tier : Tier
  prompt : String
deriving DecidableEq

/-- Embeds `generateMarketingAsset`.  The two model tiers are oracle
arguments giving each call's outcome; the returned list records, in
order, the calls actually made.  The primary response's extraction runs
inside the `try`, so its failure also reaches the quota test; a flash
response's extraction failure is re-thrown by the inner `catch`. -/
def generateMarketingAsset (primary secondary : Except JsError GenResponse)
    (prompt : String) : Except JsError String × List CallRec :=
  let fullPrompt := genRules prompt
  let proCall : CallRec := ⟨Tier.pro, fullPrompt⟩
  let flashCall : CallRec := ⟨Tier.flash, fullPrompt ++ qualityHint⟩
  let onCatch : JsError → Except JsError String × List CallRec := fun e =>
    if isQuotaSignal e then
      match secondary with
      | .ok r2 => (extractImageFromResponse r2, [proCall, flashCall])
      | .error e2 => (.error e2, [proCall, flashCall])
    else (.error e, [proCall])
  match primary with
  | .ok r =>
    match extractImageFromResponse r with
    | .ok img => (.ok img, [proCall])
    | .error e => onCatch e
  | .error e => onCatch e

/-! ## App data model (src/unnamed/part_003: `types.ts`) -/

/-- `GeneratedImage`; the optional TS fields `layoutType`, `isRegenerating`
(absent ≡ false) and `timestamp` are an `Option String`, a `Bool` and a
`Nat`. -/
structure GeneratedImage where
  id : String
  url : String
  prompt : String
  category : String
  layoutType : Option String
  isRegenerating : Bool
  timestamp : Nat
deriving DecidableEq

/-- One planned generation job (`PromptItem`); `layoutType` is one of
eight fixed tags, modelled as its string. -/
structure PromptItem where
  category : String
  visualPrompt : String
  layoutType : String
deriving DecidableEq

inductive GenerationStatus where
  | IDLE : GenerationStatus
  | RESEARCHING : GenerationStatus
  | ANALYZING : GenerationStatus
  | GENERATING : GenerationStatus
  | COMPLETE : GenerationStatus
  | ERROR : GenerationStatus
deriving DecidableEq

/-! ## History and publishing (src/components/StudioControls.tsx,
App component: `addToHistory` lines 244-250, publish sites 355-359) -/

/-- Embeds `addToHistory`: prepend, then keep at most 20 entries. -/
def addToHistory (image : GeneratedImage) (prev : List GeneratedImage) :
    List GeneratedImage :=
  (image :: prev).take 20

/-- The two independent asset collections: the session gallery
(`generatedImages`) and the persisted history. -/
structure Store where
  gallery : List GeneratedImage
  history : List GeneratedImage
deriving DecidableEq

/-- One batch-run publish: `setGeneratedImages(prev => [...prev, newImage])`
followed by `addToHistory(newImage)`. -/
def publish (image : GeneratedImage) (st : Store) : Store :=
  ⟨st.gallery ++ [image], addToHistory image st.history⟩

/-- Sequential publication of a list of assets, in order. -/
def publishAll (images : List GeneratedImage) (st : Store) : Store :=
  images.foldl (fun s img => publish img s) st

/-! ## Regeneration (src/components/StudioControls.tsx, App component:
`handleRegenerate` lines 420-462) -/

/-- The data-URI prefix put in front of returned base64 image bytes. -/
def dataUri (b : String) : String := "data:image/png;base64," ++ b

/-- The optimistic update applied to both collections before the call:
mark the entry (or entries) with this id as regenerating and overwrite
the stored prompt. -/
def beginRegen (id newPrompt : String) (l : List GeneratedImage) :
    List GeneratedImage :=
  l.map fun img =>
    if img.id = id then { img with isRegenerating := true, prompt := newPrompt }
    else img

/-- The update applied on success: replace the image bytes, clear the
flag, refresh the timestamp. -/
def completeRegen (id bytes : String) (now : Nat) (l : List GeneratedImage) :
    List GeneratedImage :=
  l.map fun img =>
    if img.id = id then
      { img with url := dataUri bytes, isRegenerating := false, timestamp := now }
    else img

/-- The update applied on failure: clear the flag only. -/
def failRegen (id : String) (l : List GeneratedImage) : List GeneratedImage :=
  l.map fun img =>
    if img.id = id then { img with isRegenerating := false } else img

/-- Embeds `handleRegenerate`: a no-op without source product images;
otherwise the optimistic update, the generation call (an oracle
argument), and the success or failure update — each applied to the
gallery and the history independently. -/
def handleRegenerate (productImages : List String)
    (genResult : Except JsError String) (id newPrompt : String) (now : Nat)
    (st : Store) : Store :=
  if productImages.isEmpty then st
  else
    let st1 : Store :=
      ⟨beginRegen id newPrompt st.gallery, beginRegen id newPrompt st.history⟩
    match genResult with
    | .ok bytes =>
      ⟨completeRegen id bytes now st1.gallery, completeRegen id bytes now st1.history⟩
    | .error _ =>
      ⟨failRegen id st1.gallery, failRegen id st1.history⟩

/-- The net per-entry effect of a successful regeneration
(begin followed by complete). -/
def successUpdate (id newPrompt bytes : String) (now : Nat)
    (img : GeneratedImage) : GeneratedImage :=
  if img.id = id then
    { img with url := dataUri bytes, prompt := newPrompt,
               isRegenerating := false, timestamp := now }
  else img

/-- The net per-entry effect of a failed regeneration
(begin followed by fail): the prompt keeps the optimistic overwrite, the
image bytes are untouched, the flag ends cleared. -/
def failUpdate (id newPrompt : String) (img : GeneratedImage) : GeneratedImage :=
  if img.id = id then
    { img with prompt := newPrompt, isRegenerating := false }
  else img

/-! ## The batch sequencer (src/components/StudioControls.tsx, App
component: `handleGenerate` lines 291-375)

The generation loop is embedded as a recursion over the plan carrying
the UI state and a success counter, and emitting an event trace: the
progress publication, the pacing delay, the start (`attempt`) and
settlement of each generation call, and each publication.  The per-job
generation outcome is an oracle `gen : Nat → Except JsError String`
mapping the job index to the image bytes or the thrown error. -/

inductive RunEvent where
  | progress (current total : Nat) : RunEvent
  | delayMs (ms : Nat) : RunEvent
  | attempt (i : Nat) : RunEvent
  | settled (i : Nat) (success : Bool) : RunEvent
  | published (id : String) : RunEvent
deriving DecidableEq

/-- The UI state touched by `handleGenerate`. -/
structure AppState where
  generatedImages : List GeneratedImage
  history : List GeneratedImage
  status : GenerationStatus
  errorMsg : Option String
  progress : Nat × Nat
deriving DecidableEq

/-- `img-${Date.now()}-${i}`. -/
def mkImgId (now i : Nat) : String :=
  "img-" ++ toString now ++ "-" ++ toString i

/-- The `GeneratedImage` built for a successful job. -/
def mkImage (now i : Nat) (bytes : String) (item : PromptItem) : GeneratedImage :=
  { id := mkImgId now i, url := dataUri bytes, prompt := item.visualPrompt,
    category := item.category, layoutType := some item.layoutType,
    isRegenerating := false, timestamp := now }

/-- The `for` loop of `handleGenerate`: for each job publish progress,
pace (except before the first job), call the generator, and on success
publish the asset to both collections and bump the counter; a failure
is only logged.  Returns the final state, the success count and the
event trace. -/
def seqLoop (gen : Nat → Except JsError String) (now total : Nat) :
    List PromptItem → Nat → AppState → Nat →
    AppState × Nat × List RunEvent
  | [], _, st, sc => (st, sc, [])
  | item :: rest, i, st, sc =>
    let pre : List RunEvent :=
      [RunEvent.progress (i + 1) total] ++
      (if 0 < i then [RunEvent.delayMs 1500] else []) ++
      [RunEvent.attempt i]
    match gen i with
    | .ok bytes =>
      let img := mkImage now i bytes item
      let st2 : AppState :=
        { st with generatedImages := st.generatedImages ++ [img],
                  history := addToHistory img st.history }
      let r := seqLoop gen now total rest (i + 1) st2 (sc + 1)
      (r.1, r.2.1,
        pre ++ [RunEvent.settled i true, RunEvent.published img.id] ++ r.2.2)
    | .error _ =>
      let r := seqLoop gen now total rest (i + 1) st sc
      (r.1, r.2.1, pre ++ [RunEvent.settled i false] ++ r.2.2)

/-- The run-level error message thrown when no job succeeded. -/
def allFailedMsg : String :=
  "All image generations failed. Your API key may have insufficient quota for image generation."

/-- Embeds `handleGenerate` from the point where a plan is in hand: the
earlier resets (`setErrorMsg(null)`, `setGeneratedImages([])`,
`setProgress({current: 0, total: 7})`) and `setStatus(GENERATING)` are
applied, the loop runs, and the terminal check either throws the
all-failed error (caught by the outer handler, which records the
message and the ERROR status) or reports COMPLETE. -/
def handleGenerate (gen : Nat → Except JsError String) (now : Nat)
    (prompts : List PromptItem) (st0 : AppState) : AppState × List RunEvent :=
  let stStart : AppState :=
    { st0 with generatedImages := [], errorMsg := none,
               status := GenerationStatus.GENERATING, progress := (0, 7) }
  let r := seqLoop gen now prompts.length prompts 0 stStart 0
  if r.2.1 = 0 then
    ({ r.1 with status := GenerationStatus.ERROR, errorMsg := some allFailedMsg },
     r.2.2)
  else
    ({ r.1 with status := GenerationStatus.COMPLETE }, r.2.2)

/-- The assets a run publishes: one per successful job, in plan order. -/
def publishedList (gen : Nat → Except JsError String) (now : Nat) :
    List PromptItem → Nat → List GeneratedImage
  | [], _ => []
  | item :: rest, i =>
    match gen i with
    | .ok bytes => mkImage now i bytes item :: publishedList gen now rest (i + 1)
    | .error _ => publishedList gen now rest (i + 1)

/-- Closed form of the event trace: per job, the progress event, the
pacing delay for every job after the first, the attempt, and its
settlement (plus the publication on success). -/
def traceList (gen : Nat → Except JsError String) (now total : Nat) :
    List PromptItem → Nat → List RunEvent
  | [], _ => []
  | _ :: rest, i =>
    [RunEvent.progress (i + 1) total] ++
    (if 0 < i then [RunEvent.delayMs 1500] else []) ++
    [RunEvent.attempt i] ++
    (match gen i with
     | .ok _ => [RunEvent.settled i true, RunEvent.published (mkImgId now i)]
     | .error _ => [RunEvent.settled i false]) ++
    traceList gen now total rest (i + 1)

/-! ## Event predicates and witness scaffolding -/

/-- Whether the generation oracle succeeds on job `i`. -/
def genOk (gen : Nat → Except JsError String) (i : Nat) : Bool :=
  match gen i with
  | .ok _ => true
  | .error _ => false

def isAttempt : RunEvent → Bool
  | RunEvent.attempt _ => true
  | _ => false

def isSettled : RunEvent → Bool
  | RunEvent.settled _ _ => true
  | _ => false

def isDelay : RunEvent → Bool
  | RunEvent.delayMs _ => true
  | _ => false

def isProgress : RunEvent → Bool
  | RunEvent.progress _ _ => true
  | _ => false

/-- A concrete asset used by witness instances. -/
def dummyImg (n : Nat) : GeneratedImage :=
  { id := toString n, url := "u", prompt := "p", category := "c",
    layoutType := none, isRegenerating := false, timestamp := n }

/-- A concrete generation oracle for witness instances: job 0 succeeds,
every later job fails. -/
def wGen : Nat → Except JsError String :=
  fun i => if i = 0 then Except.ok "A" else Except.error ⟨"boom", none⟩

/-- A concrete two-job plan for witness instances. -/
def wPrompts : List PromptItem :=
  [⟨"a", "va", "SPLASH"⟩, ⟨"b", "vb", "MACRO"⟩]

/-- A concrete initial UI state for witness instances. -/
def wState : AppState :=
  { generatedImages := [], history := [], status := GenerationStatus.IDLE,
    errorMsg := none, progress := (0, 7) }

/-! ## Lemmas about the index helpers and `cleanJson` -/

theorem firstIdx_cons_self (c : Char) (l : List Char) :
    firstIdx c (c :: l) = some 0 := by
  simp [firstIdx]

theorem firstIdx_append_of_not_mem (c : Char) (a b : List Char) (h : c ∉ a) :
    firstIdx c (a ++ b) = (firstIdx c b).map (· + a.length) := by
  induction a with
  | nil =>
    simp only [List.nil_append, List.length_nil]
    cases h2 : firstIdx c b <;> simp [h2]
  | cons x xs ih =>
    have hx : x ≠ c := by
      intro hxc
      exact h (hxc ▸ List.mem_cons_self x xs)
    have hxs : c ∉ xs := fun hm => h (List.mem_cons_of_mem x hm)
    rw [List.cons_append]
    simp only [firstIdx, if_neg hx, ih hxs]
    cases h2 : firstIdx c b
    · simp [h2]
    · simp [h2]
      omega

/-- Where `cleanJson` finds the first `[` in prose-wrapped input. -/
theorem firstIdx_wrapped (pre mid post : List Char) (hpre : '[' ∉ pre) :
    firstIdx '[' (pre ++ '[' :: (mid ++ [']']) ++ post) = some pre.length := by
  rw [List.append_assoc, firstIdx_append_of_not_mem '[' pre _ hpre,
    List.cons_append, firstIdx_cons_self]
  simp

/-- Where `cleanJson` finds the last `]` in prose-wrapped input. -/
theorem lastIdx_wrapped (pre mid post : List Char) (hpost : ']' ∉ post) :
    lastIdx ']' (pre ++ '[' :: (mid ++ [']']) ++ post) =
      some (pre.length + mid.length + 1) := by
  unfold lastIdx
  have hrev : (pre ++ '[' :: (mid ++ [']']) ++ post).reverse =
      post.reverse ++ ']' :: (mid.reverse ++ '[' :: pre.reverse) := by
    simp
  rw [hrev, firstIdx_append_of_not_mem ']' post.reverse _
    (by simpa using hpost), firstIdx_cons_self]
  simp only [Option.map_some, Option.map_map, Option.some.injEq]
  simp [List.length_append]
  omega

/-- The extraction behavior of `cleanJson` on a bracketed block wrapped
in arbitrary bracket-free prose: the block itself comes back. -/
theorem cleanJson_extracts (pre mid post : List Char)
    (hpre : '[' ∉ pre) (hpost : ']' ∉ post) :
    cleanJson (pre ++ '[' :: (mid ++ [']']) ++ post).asString =
      ('[' :: (mid ++ [']'])).asString := by
  have htl : ((pre ++ '[' :: (mid ++ [']']) ++ post).asString).toList =
      pre ++ '[' :: (mid ++ [']']) ++ post := rfl
  simp only [cleanJson, htl, firstIdx_wrapped pre mid post hpre,
    lastIdx_wrapped pre mid post hpost]
  have hlt : pre.length < pre.length + mid.length + 1 := by omega
  rw [if_pos hlt, List.append_assoc, List.drop_left]
  have hlen : pre.length + mid.length + 1 + 1 - pre.length =
      ('[' :: (mid ++ [']'])).length := by
    simp
    omega
  rw [hlen, List.take_left]

/-! ## Lemmas about publishing and the history bound -/

theorem take_append_take {α : Type} (x l : List α) (n : Nat) :
    (x ++ l.take n).take n = (x ++ l).take n := by
  rw [List.take_append_eq_append_take, List.take_append_eq_append_take,
    List.take_take]
  congr 1
  have h : min (n - x.length) n = n - x.length := Nat.min_eq_left (by omega)
  rw [h]

theorem publishAll_gallery (imgs : List GeneratedImage) :
    ∀ st : Store, (publishAll imgs st).gallery = st.gallery ++ imgs := by
  induction imgs with
  | nil => intro st; simp [publishAll]
  | cons a rest ih =>
    intro st
    have h1 : publishAll (a :: rest) st = publishAll rest (publish a st) := rfl
    rw [h1, ih]
    simp [publish]

theorem publish_history_le (a : GeneratedImage) (st : Store) :
    (publish a st).history.length ≤ 20 := by
  simp [publish, addToHistory]

theorem publishAll_history (imgs : List GeneratedImage) :
    ∀ st : Store, st.history.length ≤ 20 →
      (publishAll imgs st).history = (imgs.reverse ++ st.history).take 20 := by
  induction imgs with
  | nil =>
    intro st h
    simp [publishAll, List.take_of_length_le h]
  | cons a rest ih =>
    intro st h
    have h1 : publishAll (a :: rest) st = publishAll rest (publish a st) := rfl
    have hstep : (publish a st).history = (a :: st.history).take 20 := rfl
    calc (publishAll (a :: rest) st).history
        = (rest.reverse ++ (publish a st).history).take 20 := by
          rw [h1, ih _ (publish_history_le a st)]
      _ = (rest.reverse ++ (a :: st.history).take 20).take 20 := by rw [hstep]
      _ = (rest.reverse ++ (a :: st.history)).take 20 := take_append_take _ _ _
      _ = ((a :: rest).reverse ++ st.history).take 20 := by simp

/-! ## Lemmas about regeneration -/

theorem successUpdate_id (id newPrompt bytes : String) (now : Nat)
    (img : GeneratedImage) : (successUpdate id newPrompt bytes now img).id = img.id := by
  unfold successUpdate
  by_cases h : img.id = id <;> simp [h]

theorem failUpdate_id (id newPrompt : String) (img : GeneratedImage) :
    (failUpdate id newPrompt img).id = img.id := by
  unfold failUpdate
  by_cases h : img.id = id <;> simp [h]

theorem completeRegen_beginRegen (id newPrompt bytes : String) (now : Nat)
    (l : List GeneratedImage) :
    completeRegen id bytes now (beginRegen id newPrompt l) =
      l.map (successUpdate id newPrompt bytes now) := by
  unfold completeRegen beginRegen
  rw [List.map_map]
  apply List.map_congr_left
  intro a _
  by_cases h : a.id = id <;> simp [Function.comp, h, successUpdate]

theorem failRegen_beginRegen (id newPrompt : String) (l : List GeneratedImage) :
    failRegen id (beginRegen id newPrompt l) = l.map (failUpdate id newPrompt) := by
  unfold failRegen beginRegen
  rw [List.map_map]
  apply List.map_congr_left
  intro a _
  by_cases h : a.id = id <;> simp [Function.comp, h, failUpdate]

theorem map_id_of_no_match (u : GeneratedImage → GeneratedImage)
    (id : String) (hu : ∀ img : GeneratedImage, img.id ≠ id → u img = img)
    (l : List GeneratedImage) (h : ∀ img ∈ l, img.id ≠ id) : l.map u = l := by
  have : l.map u = l.map (fun a => a) :=
    List.map_congr_left (fun a ha => hu a (h a ha))
  simpa using this

theorem find?_map_id_preserving (u : GeneratedImage → GeneratedImage)
    (hu : ∀ a, (u a).id = a.id) (id : String) (l : List GeneratedImage) :
    (l.map u).find? (fun a => a.id = id) =
      ((l.find? (fun a => a.id = id)).map u) := by
  have hp : ((fun a : GeneratedImage => decide (a.id = id)) ∘ u) =
      (fun a : GeneratedImage => decide (a.id = id)) := by
    funext a
    simp [Function.comp, hu a]
  rw [List.find?_map, hp]

/-! ## Lemmas about the sequencer loop -/


/-- The loop's full behavior: its effect on the two collections is
exactly a sequential publication of the successful jobs' assets, it
leaves status and error message alone, it adds the number of successes
to the counter, and it emits the closed-form trace. -/
theorem seqLoop_spec (gen : Nat → Except JsError String) (now total : Nat) :
    ∀ (prompts : List PromptItem) (i : Nat) (st : AppState) (sc : Nat),
      (Store.mk (seqLoop gen now total prompts i st sc).1.generatedImages
          (seqLoop gen now total prompts i st sc).1.history =
        publishAll (publishedList gen now prompts i)
          (Store.mk st.generatedImages st.history)) ∧
      (seqLoop gen now total prompts i st sc).1.status = st.status ∧
      (seqLoop gen now total prompts i st sc).1.errorMsg = st.errorMsg ∧
      (seqLoop gen now total prompts i st sc).2.1 =
        sc + (publishedList gen now prompts i).length ∧
      (seqLoop gen now total prompts i st sc).2.2 =
        traceList gen now total prompts i := by
  intro prompts
  induction prompts with
  | nil =>
    intro i st sc
    simp [seqLoop, publishedList, publishAll, traceList]
  | cons item rest ih =>
    intro i st sc
    cases hgen : gen i with
    | ok bytes =>
      have hloop : seqLoop gen now total (item :: rest) i st sc =
          (let img := mkImage now i bytes item
           let st2 : AppState :=
             { st with generatedImages := st.generatedImages ++ [img],
                       history := addToHistory img st.history }
           let r := seqLoop gen now total rest (i + 1) st2 (sc + 1)
           (r.1, r.2.1,
             ([RunEvent.progress (i + 1) total] ++
              (if 0 < i then [RunEvent.delayMs 1500] else []) ++
              [RunEvent.attempt i]) ++
             [RunEvent.settled i true, RunEvent.published (mkImage now i bytes item).id] ++
             r.2.2)) := by
        simp [seqLoop, hgen]
      have hpub : publishedList gen now (item :: rest) i =
          mkImage now i bytes item :: publishedList gen now rest (i + 1) := by
        simp [publishedList, hgen]
      have htr : traceList gen now total (item :: rest) i =
          ([RunEvent.progress (i + 1) total] ++
           (if 0 < i then [RunEvent.delayMs 1500] else []) ++
           [RunEvent.attempt i]) ++
          [RunEvent.settled i true, RunEvent.published (mkImgId now i)] ++
          traceList gen now total rest (i + 1) := by
        simp [traceList, hgen]
      obtain ⟨ha, hs, he, hc, ht⟩ :=
        ih (i + 1)
          { st with generatedImages := st.generatedImages ++ [mkImage now i bytes item],
                    history := addToHistory (mkImage now i bytes item) st.history }
          (sc + 1)
      refine ⟨?_, ?_, ?_, ?_, ?_⟩
      · rw [hloop]
        simp only []
        rw [ha, hpub]
        have : publishAll
            (mkImage now i bytes item :: publishedList gen now rest (i + 1))
            (Store.mk st.generatedImages st.history) =
          publishAll (publishedList gen now rest (i + 1))
            (publish (mkImage now i bytes item)
              (Store.mk st.generatedImages st.history)) := rfl
        rw [this]
        rfl
      · rw [hloop]; simpa using hs
      · rw [hloop]; simpa using he
      · rw [hloop]
        simp only []
        rw [hc, hpub]
        simp
        omega
      · rw [hloop, htr]
        simp only []
        rw [ht]
        simp [mkImage]
    | error e =>
      have hloop : seqLoop gen now total (item :: rest) i st sc =
          (let r := seqLoop gen now total rest (i + 1) st sc
           (r.1, r.2.1,
             ([RunEvent.progress (i + 1) total] ++
              (if 0 < i then [RunEvent.delayMs 1500] else []) ++
              [RunEvent.attempt i]) ++
             [RunEvent.settled i false] ++ r.2.2)) := by
        simp [seqLoop, hgen]
      have hpub : publishedList gen now (item :: rest) i =
          publishedList gen now rest (i + 1) := by
        simp [publishedList, hgen]
      have htr : traceList gen now total (item :: rest) i =
          ([RunEvent.progress (i + 1) total] ++
           (if 0 < i then [RunEvent.delayMs 1500] else []) ++
           [RunEvent.attempt i]) ++
          [RunEvent.settled i false] ++
          traceList gen now total rest (i + 1) := by
        simp [traceList, hgen]
      obtain ⟨ha, hs, he, hc, ht⟩ := ih (i + 1) st sc
      refine ⟨?_, ?_, ?_, ?_, ?_⟩
      · rw [hloop]
        simp only []
        rw [ha, hpub]
      · rw [hloop]; simpa using hs
      · rw [hloop]; simpa using he
      · rw [hloop]
        simp only []
        rw [hc, hpub]
      · rw [hloop, htr]
        simp only []
        rw [ht]

theorem publishedList_length (gen : Nat → Except JsError String) (now : Nat) :
    ∀ (prompts : List PromptItem) (i : Nat),
      (publishedList gen now prompts i).length =
        (List.range' i prompts.length).countP (fun j => genOk gen j) := by
  intro prompts
  induction prompts with
  | nil => intro i; simp [publishedList]
  | cons item rest ih =>
    intro i
    have hr : List.range' i (rest.length + 1) = i :: List.range' (i + 1) rest.length :=
      List.range'_succ i rest.length 1
    cases hgen : gen i with
    | ok bytes =>
      simp [publishedList, hgen, hr, List.countP_cons, ih (i + 1), genOk]
    | error e =>
      simp [publishedList, hgen, hr, List.countP_cons, ih (i + 1), genOk]

theorem traceList_filter_attempt (gen : Nat → Except JsError String)
    (now total : Nat) :
    ∀ (prompts : List PromptItem) (i : Nat),
      (traceList gen now total prompts i).filter isAttempt =
        (List.range' i prompts.length).map RunEvent.attempt := by
  intro prompts
  induction prompts with
  | nil => intro i; simp [traceList]
  | cons item rest ih =>
    intro i
    have hr : List.range' i (rest.length + 1) = i :: List.range' (i + 1) rest.length :=
      List.range'_succ i rest.length 1
    cases hgen : gen i <;> by_cases hi : 0 < i <;>
      simp [traceList, hgen, hi, hr, List.filter_append, ih (i + 1),
        isAttempt]

theorem traceList_filter_attempt_settled (gen : Nat → Except JsError String)
    (now total : Nat) :
    ∀ (prompts : List PromptItem) (i : Nat),
      (traceList gen now total prompts i).filter
          (fun e => isAttempt e || isSettled e) =
        ((List.range' i prompts.length).map
          (fun j => [RunEvent.attempt j, RunEvent.settled j (genOk gen j)])).flatten := by
  intro prompts
  induction prompts with
  | nil => intro i; simp [traceList]
  | cons item rest ih =>
    intro i
    have hr : List.range' i (rest.length + 1) = i :: List.range' (i + 1) rest.length :=
      List.range'_succ i rest.length 1
    cases hgen : gen i with
    | ok bytes =>
      simp only [traceList, hgen, List.filter_append]
      rw [ih (i + 1)]
      simp only [List.length_cons, hr]
      by_cases hi : 0 < i <;>
        simp [hi, isAttempt, isSettled, genOk, hgen]
    | error e =>
      simp only [traceList, hgen, List.filter_append]
      rw [ih (i + 1)]
      simp only [List.length_cons, hr]
      by_cases hi : 0 < i <;>
        simp [hi, isAttempt, isSettled, genOk, hgen]

theorem traceList_filter_delay_attempt (gen : Nat → Except JsError String)
    (now total : Nat) :
    ∀ (prompts : List PromptItem) (i : Nat), 0 < i →
      (traceList gen now total prompts i).filter
          (fun e => isDelay e || isAttempt e) =
        ((List.range' i prompts.length).map
          (fun j => [RunEvent.delayMs 1500, RunEvent.attempt j])).flatten := by
  intro prompts
  induction prompts with
  | nil => intro i _; simp [traceList]
  | cons item rest ih =>
    intro i hi
    have hr : List.range' i (rest.length + 1) = i :: List.range' (i + 1) rest.length :=
      List.range'_succ i rest.length 1
    cases hgen : gen i with
    | ok bytes =>
      simp only [traceList, hgen, List.filter_append]
      rw [ih (i + 1) (Nat.succ_pos i)]
      simp only [List.length_cons, hr]
      simp [hi, isDelay, isAttempt]
    | error e =>
      simp only [traceList, hgen, List.filter_append]
      rw [ih (i + 1) (Nat.succ_pos i)]
      simp only [List.length_cons, hr]
      simp [hi, isDelay, isAttempt]

theorem traceList_filter_progress_attempt (gen : Nat → Except JsError String)
    (now total : Nat) :
    ∀ (prompts : List PromptItem) (i : Nat),
      (traceList gen now total prompts i).filter
          (fun e => isProgress e || isAttempt e) =
        ((List.range' i prompts.length).map
          (fun j => [RunEvent.progress (j + 1) total, RunEvent.attempt j])).flatten := by
  intro prompts
  induction prompts with
  | nil => intro i; simp [traceList]
  | cons item rest ih =>
    intro i
    have hr : List.range' i (rest.length + 1) = i :: List.range' (i + 1) rest.length :=
      List.range'_succ i rest.length 1
    cases hgen : gen i with
    | ok bytes =>
      simp only [traceList, hgen, List.filter_append]
      rw [ih (i + 1)]
      simp only [List.length_cons, hr]
      by_cases hi : 0 < i <;>
        simp [hi, isProgress, isAttempt]
    | error e =>
      simp only [traceList, hgen, List.filter_append]
      rw [ih (i + 1)]
      simp only [List.length_cons, hr]
      by_cases hi : 0 < i <;>
        simp [hi, isProgress, isAttempt]

/-! ## Corollaries about `handleGenerate` -/

theorem handleGenerate_trace (gen : Nat → Except JsError String) (now : Nat)
    (prompts : List PromptItem) (st0 : AppState) :
    (handleGenerate gen now prompts st0).2 =
      traceList gen now prompts.length prompts 0 := by
  have h := (seqLoop_spec gen now prompts.length prompts 0
    { st0 with generatedImages := [], errorMsg := none,
               status := GenerationStatus.GENERATING, progress := (0, 7) } 0).2.2.2.2
  simp only [handleGenerate]
  split <;> exact h

theorem handleGenerate_gallery (gen : Nat → Except JsError String) (now : Nat)
    (prompts : List PromptItem) (st0 : AppState) :
    (handleGenerate gen now prompts st0).1.generatedImages =
      publishedList gen now prompts 0 := by
  have h := (seqLoop_spec gen now prompts.length prompts 0
    { st0 with generatedImages := [], errorMsg := none,
               status := GenerationStatus.GENERATING, progress := (0, 7) } 0).1
  have hg := congrArg Store.gallery h
  rw [publishAll_gallery] at hg
  simp only [List.nil_append] at hg
  simp only [handleGenerate]
  split <;> simpa using hg

theorem handleGenerate_outcome (gen : Nat → Except JsError String) (now : Nat)
    (prompts : List PromptItem) (st0 : AppState) :
    ((publishedList gen now prompts 0).length = 0 →
      (handleGenerate gen now prompts st0).1.status = GenerationStatus.ERROR ∧
      (handleGenerate gen now prompts st0).1.errorMsg = some allFailedMsg) ∧
    ((publishedList gen now prompts 0).length ≠ 0 →
      (handleGenerate gen now prompts st0).1.status = GenerationStatus.COMPLETE ∧
      (handleGenerate gen now prompts st0).1.errorMsg = none) := by
  have hc := (seqLoop_spec gen now prompts.length prompts 0
    { st0 with generatedImages := [], errorMsg := none,
               status := GenerationStatus.GENERATING, progress := (0, 7) } 0).2.2.2.1
  have he := (seqLoop_spec gen now prompts.length prompts 0
    { st0 with generatedImages := [], errorMsg := none,
               status := GenerationStatus.GENERATING, progress := (0, 7) } 0).2.2.1
  simp only [Nat.zero_add] at hc
  constructor
  · intro h0
    have hz : (seqLoop gen now prompts.length prompts 0
        { st0 with generatedImages := [], errorMsg := none,
                   status := GenerationStatus.GENERATING, progress := (0, 7) } 0).2.1 = 0 :=
      hc.trans h0
    simp only [handleGenerate]
    rw [if_pos hz]
    simp
  · intro h0
    have hz : (seqLoop gen now prompts.length prompts 0
        { st0 with generatedImages := [], errorMsg := none,
                   status := GenerationStatus.GENERATING, progress := (0, 7) } 0).2.1 ≠ 0 := by
      rw [hc]; exact h0
    simp only [handleGenerate]
    rw [if_neg hz]
    refine ⟨rfl, ?_⟩
    simpa using he

/-! ## Bridging lemmas for the claim statements -/

theorem isQuotaSignal_eq (e : JsError) :
    isQuotaSignal e =
      (strContains e.message "429" || strContains e.message "quota" ||
       strContains e.message "RESOURCE_EXHAUSTED" ||
       e.status == some "RESOURCE_EXHAUSTED") := by
  rcases e with ⟨msg, status⟩
  by_cases h : msg = ""
  · subst h
    have h1 : strContains "\x7b\x7d" "429" = false := by decide
    have h2 : strContains "\x7b\x7d" "quota" = false := by decide
    have h3 : strContains "\x7b\x7d" "RESOURCE_EXHAUSTED" = false := by decide
    have h4 : strContains "" "429" = false := by decide
    have h5 : strContains "" "quota" = false := by decide
    have h6 : strContains "" "RESOURCE_EXHAUSTED" = false := by decide
    simp [isQuotaSignal, errMsg, h1, h2, h3, h4, h5, h6]
  · simp [isQuotaSignal, errMsg, h]

theorem refusalMsg_ne_noImage (t : String) :
    refusalMsg t ≠ "Model did not return an image." := by
  intro h
  have h2 := congrArg (fun s : String => s.toList.take 7) h
  simp only at h2
  rw [show (refusalMsg t).toList =
        "Model refused generation: ".toList ++ t.toList from rfl,
    List.take_append_eq_append_take] at h2
  simp at h2

theorem refusalMsg_ne_noContent (t : String) :
    refusalMsg t ≠ "No content generated" := by
  intro h
  have h2 := congrArg (fun s : String => s.toList.take 7) h
  simp only at h2
  rw [show (refusalMsg t).toList =
        "Model refused generation: ".toList ++ t.toList from rfl,
    List.take_append_eq_append_take] at h2
  simp at h2

theorem countP_not_bool {α : Type} (p : α → Bool) (l : List α) :
    l.countP (fun a => !p a) = l.countP (fun a => decide ¬(p a = true)) := by
  have h : (fun a => !p a) = (fun a => decide ¬(p a = true)) := by
    funext a
    cases p a <;> rfl
  rw [h]

/-! ## The claims -/

/-- C1, sequencer isolation: in every batch run, every job of the plan
is attempted, in plan order, whatever the per-job outcomes are (so one
job's failure aborts nothing), and the number of assets published to
the session gallery at the end of the run is the number of jobs whose
generation call succeeded, i.e. the plan size minus the number of
failed jobs. -/
theorem sequencer_isolation (gen : Nat → Except JsError String) (now : Nat)
    (prompts : List PromptItem) (st0 : AppState) :
    ((handleGenerate gen now prompts st0).2.filter isAttempt =
      (List.range prompts.length).map RunEvent.attempt) ∧
    (handleGenerate gen now prompts st0).1.generatedImages.length =
      (List.range prompts.length).countP (fun i => genOk gen i) ∧
    (handleGenerate gen now prompts st0).1.generatedImages.length +
      (List.range prompts.length).countP (fun i => !genOk gen i) =
        prompts.length := by
  have htr := handleGenerate_trace gen now prompts st0
  have hg := handleGenerate_gallery gen now prompts st0
  have hlen := publishedList_length gen now prompts 0
  refine ⟨?_, ?_, ?_⟩
  · rw [htr, traceList_filter_attempt, List.range_eq_range']
  · rw [hg, hlen, List.range_eq_range']
  · rw [hg, hlen, List.range_eq_range', countP_not_bool]
    have := List.length_eq_countP_add_countP (fun i => genOk gen i)
      (List.range' 0 prompts.length)
    simp only [List.length_range'] at this
    omega

/-- C2, all-fail signaling: if a plan of at least one job has every
generation call fail, the run ends with the `AllGenerationsFailed`
run-level error (status ERROR, the all-failed message recorded) and an
empty gallery; if at least one job succeeds, the run ends COMPLETE with
no run-level error recorded. -/
theorem all_fail_signaling (gen : Nat → Except JsError String) (now : Nat)
    (prompts : List PromptItem) (st0 : AppState) :
    (1 ≤ prompts.length → (∀ i < prompts.length, genOk gen i = false) →
      (handleGenerate gen now prompts st0).1.status = GenerationStatus.ERROR ∧
      (handleGenerate gen now prompts st0).1.errorMsg = some allFailedMsg ∧
      (handleGenerate gen now prompts st0).1.generatedImages = []) ∧
    ((∃ i < prompts.length, genOk gen i = true) →
      (handleGenerate gen now prompts st0).1.status = GenerationStatus.COMPLETE ∧
      (handleGenerate gen now prompts st0).1.errorMsg = none) := by
  have hg := handleGenerate_gallery gen now prompts st0
  have hlen := publishedList_length gen now prompts 0
  have hout := handleGenerate_outcome gen now prompts st0
  constructor
  · intro _ hfail
    have hzero : (publishedList gen now prompts 0).length = 0 := by
      rw [hlen]
      rw [List.countP_eq_zero]
      intro a ha
      have : a < prompts.length := by
        have := List.mem_range'_1.mp ha
        omega
      simp [hfail a this]
    refine ⟨(hout.1 hzero).1, (hout.1 hzero).2, ?_⟩
    rw [hg]
    exact List.length_eq_zero.mp hzero
  · rintro ⟨i, hi, hok⟩
    have hpos : 0 < (publishedList gen now prompts 0).length := by
      rw [hlen]
      apply List.countP_pos_iff.mpr
      exact ⟨i, List.mem_range'_1.mpr (by omega), by simpa using hok⟩
    exact hout.2 (by omega)

/-- C2 witness: a two-job plan where both calls fail ends in ERROR with
the all-failed message and an empty gallery; a two-job plan whose first
call succeeds ends COMPLETE with no error recorded. -/
theorem all_fail_signaling_witness :
    ((handleGenerate (fun _ => Except.error ⟨"quota exhausted", none⟩) 3
        wPrompts wState).1.status = GenerationStatus.ERROR ∧
     (handleGenerate (fun _ => Except.error ⟨"quota exhausted", none⟩) 3
        wPrompts wState).1.errorMsg = some allFailedMsg ∧
     (handleGenerate (fun _ => Except.error ⟨"quota exhausted", none⟩) 3
        wPrompts wState).1.generatedImages = []) ∧
    ((handleGenerate wGen 3 wPrompts wState).1.status =
        GenerationStatus.COMPLETE ∧
     (handleGenerate wGen 3 wPrompts wState).1.errorMsg = none) := by
  constructor
  · exact (all_fail_signaling (fun _ => Except.error ⟨"quota exhausted", none⟩)
      3 wPrompts wState).1 (by decide) (by decide)
  · exact (all_fail_signaling wGen 3 wPrompts wState).2 ⟨0, by decide, by decide⟩

/-- C3 (amended): the planner extracts the substring from the first `[`
to the last `]` when such a pair exists in order (tolerating arbitrary
bracket-free prose around it), and it fails with the planning-failure
error when the capability call throws, returns no text, or returns text
whose cleaned form is not valid JSON; but decoding performs no shape
validation, so any response whose cleaned form parses as JSON — even
one that is not a list of records at all, or the empty list — is
returned silently. -/
theorem plan_extraction_amended :
    (∀ pre mid post : List Char, '[' ∉ pre → ']' ∉ post →
      cleanJson (pre ++ '[' :: (mid ++ [']']) ++ post).asString =
        ('[' :: (mid ++ [']'])).asString) ∧
    (∀ e : JsError,
      analyzeAndPlanAssets (Except.error e) = Except.error planningFailedMsg) ∧
    analyzeAndPlanAssets (Except.ok none) = Except.error planningFailedMsg ∧
    analyzeAndPlanAssets (Except.ok (some "")) = Except.error planningFailedMsg ∧
    (∀ t : String, t ≠ "" → jsonParse (cleanJson t) = none →
      analyzeAndPlanAssets (Except.ok (some t)) = Except.error planningFailedMsg) ∧
    (∀ (t : String) (v : Json), t ≠ "" → jsonParse (cleanJson t) = some v →
      analyzeAndPlanAssets (Except.ok (some t)) = Except.ok v) := by
  refine ⟨cleanJson_extracts, fun e => rfl, rfl, rfl, ?_, ?_⟩
  · intro t ht hj
    simp [analyzeAndPlanAssets, ht, hj]
  · intro t v ht hj
    simp [analyzeAndPlanAssets, ht, hj]

/-- C3 counterexample: the claim says a response with no bracket pair
raises `PlanningFailed`, and that a response that does not decode into
the expected list of records is never returned silently.  But the
bracket-free response `"null"` is accepted and the non-list value
`null` is returned, and the response `"[]"` silently yields an empty
plan. -/
theorem plan_extraction_counterexample :
    analyzeAndPlanAssets (Except.ok (some "null")) = Except.ok Json.null ∧
    analyzeAndPlanAssets (Except.ok (some "[]")) = Except.ok (Json.arr []) :=
  ⟨rfl, rfl⟩

/-- C3 witness: a garbage response fails with the planning error, and a
bracketed list inside markdown-fenced prose is extracted exactly. -/
theorem plan_extraction_witness :
    analyzeAndPlanAssets (Except.ok (some "no json here")) =
      Except.error planningFailedMsg ∧
    cleanJson (("Sure! ".toList ++ '[' :: ("1, 2".toList ++ [']']) ++
        " hope that helps".toList)).asString = ('[' :: ("1, 2".toList ++ [']'])).asString := by
  constructor
  · exact plan_extraction_amended.2.2.2.2.1 "no json here" (by decide) rfl
  · exact plan_extraction_amended.1 "Sure! ".toList "1, 2".toList
      " hope that helps".toList (by decide) (by decide)

/-- C4, quota fallback: when the primary call fails with a quota signal
(message containing `429`, `quota` or `RESOURCE_EXHAUSTED`, or status
`RESOURCE_EXHAUSTED`), exactly one secondary (flash) call is made, its
prompt being the primary prompt plus the quality-hint suffix, and the
secondary outcome (error, or its response's extraction) is what
propagates; when the primary failure carries no quota signal, no
secondary call is made and the primary error propagates. -/
theorem quota_fallback (prompt : String) (secondary : Except JsError GenResponse)
    (e : JsError) :
    ((strContains e.message "429" || strContains e.message "quota" ||
        strContains e.message "RESOURCE_EXHAUSTED" ||
        e.status == some "RESOURCE_EXHAUSTED") = true →
      (generateMarketingAsset (Except.error e) secondary prompt).2 =
        [⟨Tier.pro, genRules prompt⟩,
         ⟨Tier.flash, genRules prompt ++ qualityHint⟩] ∧
      ((generateMarketingAsset (Except.error e) secondary prompt).2.countP
        (fun c => c.tier == Tier.flash)) = 1 ∧
      (∀ e2 : JsError, secondary = Except.error e2 →
        (generateMarketingAsset (Except.error e) secondary prompt).1 =
          Except.error e2) ∧
      (∀ r2 : GenResponse, secondary = Except.ok r2 →
        (generateMarketingAsset (Except.error e) secondary prompt).1 =
          extractImageFromResponse r2)) ∧
    ((strContains e.message "429" || strContains e.message "quota" ||
        strContains e.message "RESOURCE_EXHAUSTED" ||
        e.status == some "RESOURCE_EXHAUSTED") = false →
      (generateMarketingAsset (Except.error e) secondary prompt).2 =
        [⟨Tier.pro, genRules prompt⟩] ∧
      ((generateMarketingAsset (Except.error e) secondary prompt).2.countP
        (fun c => c.tier == Tier.flash)) = 0 ∧
      (generateMarketingAsset (Except.error e) secondary prompt).1 =
        Except.error e) := by
  constructor
  · intro hq
    have hq2 : isQuotaSignal e = true := by rw [isQuotaSignal_eq]; exact hq
    cases secondary with
    | ok r2 =>
      refine ⟨?_, ?_, ?_, ?_⟩ <;>
        simp [generateMarketingAsset, hq2, List.countP_cons]
    | error e2 =>
      refine ⟨?_, ?_, ?_, ?_⟩ <;>
        simp [generateMarketingAsset, hq2, List.countP_cons]
  · intro hq
    have hq2 : isQuotaSignal e = false := by rw [isQuotaSignal_eq]; exact hq
    refine ⟨?_, ?_, ?_⟩ <;>
      simp [generateMarketingAsset, hq2, List.countP_cons]

/-- C4 witness: a primary `429` failure leads to exactly the pro call
followed by the flash call with the suffixed prompt, and the failing
secondary's error propagates; a primary failure without any quota
marker leads to the pro call alone and propagates as-is. -/
theorem quota_fallback_witness :
    ((generateMarketingAsset (Except.error ⟨"429 rate limited", none⟩)
        (Except.error ⟨"secondary down", none⟩) "p").2 =
      [⟨Tier.pro, genRules "p"⟩, ⟨Tier.flash, genRules "p" ++ qualityHint⟩]) ∧
    ((generateMarketingAsset (Except.error ⟨"429 rate limited", none⟩)
        (Except.error ⟨"secondary down", none⟩) "p").1 =
      Except.error ⟨"secondary down", none⟩) ∧
    ((generateMarketingAsset (Except.error ⟨"content policy", none⟩)
        (Except.error ⟨"secondary down", none⟩) "p").2 =
      [⟨Tier.pro, genRules "p"⟩]) ∧
    ((generateMarketingAsset (Except.error ⟨"content policy", none⟩)
        (Except.error ⟨"secondary down", none⟩) "p").1 =
      Except.error ⟨"content policy", none⟩) := by
  have h1 := (quota_fallback "p" (Except.error ⟨"secondary down", none⟩)
    ⟨"429 rate limited", none⟩).1 (by decide)
  have h2 := (quota_fallback "p" (Except.error ⟨"secondary down", none⟩)
    ⟨"content policy", none⟩).2 (by decide)
  exact ⟨h1.1, h1.2.2.1 _ rfl, h2.1, h2.2.2⟩

/-- C5, history bound and gallery order: publishing a batch of assets
sequentially appends them all to the session gallery in publish order
with no bound, while the history ends as the 20 most recently published
entries (plus surviving older ones when fewer than 20 were published),
most-recent-first, never exceeding 20. -/
theorem history_bound_gallery_order (imgs : List GeneratedImage) (st : Store)
    (h : st.history.length ≤ 20) :
    (publishAll imgs st).gallery = st.gallery ++ imgs ∧
    (publishAll imgs st).history = (imgs.reverse ++ st.history).take 20 ∧
    (publishAll imgs st).history.length ≤ 20 := by
  refine ⟨publishAll_gallery imgs st, publishAll_history imgs st h, ?_⟩
  rw [publishAll_history imgs st h]
  simp

/-- C5 witness: publishing 25 assets into an empty store leaves all 25
in the gallery in publish order and exactly the 20 most recent in
history, most-recent-first. -/
theorem history_bound_witness :
    (publishAll ((List.range 25).map dummyImg) ⟨[], []⟩).gallery =
      [] ++ (List.range 25).map dummyImg ∧
    (publishAll ((List.range 25).map dummyImg) ⟨[], []⟩).history =
      (((List.range 25).map dummyImg).reverse ++ []).take 20 ∧
    (publishAll ((List.range 25).map dummyImg) ⟨[], []⟩).history.length ≤ 20 :=
  history_bound_gallery_order ((List.range 25).map dummyImg) ⟨[], []⟩ (by decide)

/-- C6, regeneration identity preservation and frame: a successful
regeneration of id `X` maps each collection pointwise — every entry
keeps its position and id, entries with other ids are left completely
unchanged, the entries with id `X` get exactly the new image bytes, the
new prompt, a refreshed timestamp and a cleared flag — and a collection
containing no entry with id `X` is left unchanged. -/
theorem regeneration_identity_frame (productImages : List String)
    (h : productImages ≠ []) (st : Store) (id newPrompt bytes : String)
    (now : Nat) :
    (handleRegenerate productImages (Except.ok bytes) id newPrompt now st).gallery =
      st.gallery.map (successUpdate id newPrompt bytes now) ∧
    (handleRegenerate productImages (Except.ok bytes) id newPrompt now st).history =
      st.history.map (successUpdate id newPrompt bytes now) ∧
    (∀ img : GeneratedImage,
      (successUpdate id newPrompt bytes now img).id = img.id) ∧
    (∀ img : GeneratedImage, img.id ≠ id →
      successUpdate id newPrompt bytes now img = img) ∧
    (∀ img : GeneratedImage, img.id = id →
      successUpdate id newPrompt bytes now img =
        { img with url := dataUri bytes, prompt := newPrompt,
                   isRegenerating := false, timestamp := now }) ∧
    ((∀ img ∈ st.gallery, img.id ≠ id) →
      (handleRegenerate productImages (Except.ok bytes) id newPrompt now st).gallery =
        st.gallery) ∧
    ((∀ img ∈ st.history, img.id ≠ id) →
      (handleRegenerate productImages (Except.ok bytes) id newPrompt now st).history =
        st.history) := by
  have hne : productImages.isEmpty = false := by
    cases productImages with
    | nil => exact absurd rfl h
    | cons a l => rfl
  have hgal : (handleRegenerate productImages (Except.ok bytes) id newPrompt now st).gallery =
      st.gallery.map (successUpdate id newPrompt bytes now) := by
    simp only [handleRegenerate, hne, Bool.false_eq_true, if_false]
    exact completeRegen_beginRegen id newPrompt bytes now st.gallery
  have hhist : (handleRegenerate productImages (Except.ok bytes) id newPrompt now st).history =
      st.history.map (successUpdate id newPrompt bytes now) := by
    simp only [handleRegenerate, hne, Bool.false_eq_true, if_false]
    exact completeRegen_beginRegen id newPrompt bytes now st.history
  have hid := successUpdate_id id newPrompt bytes now
  have hother : ∀ img : GeneratedImage, img.id ≠ id →
      successUpdate id newPrompt bytes now img = img := by
    intro img hx
    simp [successUpdate, hx]
  refine ⟨hgal, hhist, hid, hother, ?_, ?_, ?_⟩
  · intro img hx
    simp [successUpdate, hx]
  · intro hnone
    rw [hgal]
    exact map_id_of_no_match _ id hother st.gallery hnone
  · intro hnone
    rw [hhist]
    exact map_id_of_no_match _ id hother st.history hnone

/-- C6 witness: regenerating id `x` in a concrete two-entry gallery and
one-entry history updates exactly the `x` entries in place and leaves
the other entry untouched; a history without `x` stays unchanged. -/
theorem regeneration_identity_witness :
    (handleRegenerate ["src"] (Except.ok "NEW") "x" "np" 9
        ⟨[⟨"x", "u0", "p0", "c", none, false, 0⟩,
          ⟨"y", "u1", "p1", "c", none, false, 1⟩],
         [⟨"y", "u1", "p1", "c", none, false, 1⟩]⟩).gallery =
      [⟨"x", dataUri "NEW", "np", "c", none, false, 9⟩,
       ⟨"y", "u1", "p1", "c", none, false, 1⟩] ∧
    (handleRegenerate ["src"] (Except.ok "NEW") "x" "np" 9
        ⟨[⟨"x", "u0", "p0", "c", none, false, 0⟩,
          ⟨"y", "u1", "p1", "c", none, false, 1⟩],
         [⟨"y", "u1", "p1", "c", none, false, 1⟩]⟩).history =
      [⟨"y", "u1", "p1", "c", none, false, 1⟩] := by
  have h := regeneration_identity_frame ["src"] (by decide)
    ⟨[⟨"x", "u0", "p0", "c", none, false, 0⟩,
      ⟨"y", "u1", "p1", "c", none, false, 1⟩],
     [⟨"y", "u1", "p1", "c", none, false, 1⟩]⟩ "x" "np" "NEW" 9
  constructor
  · rw [h.1]; decide
  · rw [h.2.1]; decide

/-- C7, regeneration failure non-destruction: after a failed
regeneration of id `X`, both collections are mapped pointwise by an
update that never touches the stored image bytes and ends with the
regenerating flag cleared on `X`; in particular the entry retrievable
at `X` in each collection keeps its previous `url` and has
`isRegenerating = false`. -/
theorem regeneration_failure_nondestructive (productImages : List String)
    (h : productImages ≠ []) (e : JsError) (st : Store) (id newPrompt : String)
    (now : Nat) :
    (handleRegenerate productImages (Except.error e) id newPrompt now st).gallery =
      st.gallery.map (failUpdate id newPrompt) ∧
    (handleRegenerate productImages (Except.error e) id newPrompt now st).history =
      st.history.map (failUpdate id newPrompt) ∧
    (∀ img : GeneratedImage, (failUpdate id newPrompt img).url = img.url) ∧
    (∀ img : GeneratedImage, img.id = id →
      (failUpdate id newPrompt img).isRegenerating = false) ∧
    (∀ img : GeneratedImage,
      st.gallery.find? (fun a => a.id = id) = some img →
        (handleRegenerate productImages (Except.error e) id newPrompt now
            st).gallery.find? (fun a => a.id = id) =
          some { img with prompt := newPrompt, isRegenerating := false }) ∧
    (∀ img : GeneratedImage,
      st.history.find? (fun a => a.id = id) = some img →
        (handleRegenerate productImages (Except.error e) id newPrompt now
            st).history.find? (fun a => a.id = id) =
          some { img with prompt := newPrompt, isRegenerating := false }) := by
  have hne : productImages.isEmpty = false := by
    cases productImages with
    | nil => exact absurd rfl h
    | cons a l => rfl
  have hgal : (handleRegenerate productImages (Except.error e) id newPrompt now st).gallery =
      st.gallery.map (failUpdate id newPrompt) := by
    simp only [handleRegenerate, hne, Bool.false_eq_true, if_false]
    exact failRegen_beginRegen id newPrompt st.gallery
  have hhist : (handleRegenerate productImages (Except.error e) id newPrompt now st).history =
      st.history.map (failUpdate id newPrompt) := by
    simp only [handleRegenerate, hne, Bool.false_eq_true, if_false]
    exact failRegen_beginRegen id newPrompt st.history
  have hfind : ∀ (l : List GeneratedImage) (img : GeneratedImage),
      l.find? (fun a => a.id = id) = some img →
        (l.map (failUpdate id newPrompt)).find? (fun a => a.id = id) =
          some { img with prompt := newPrompt, isRegenerating := false } := by
    intro l img hf
    rw [find?_map_id_preserving (failUpdate id newPrompt)
      (failUpdate_id id newPrompt) id l, hf]
    have hp : img.id = id := by simpa using List.find?_some hf
    simp [failUpdate, hp]
  refine ⟨hgal, hhist, ?_, ?_, ?_, ?_⟩
  · intro img
    by_cases hx : img.id = id <;> simp [failUpdate, hx]
  · intro img hx
    simp [failUpdate, hx]
  · intro img hf
    rw [hgal]
    exact hfind st.gallery img hf
  · intro img hf
    rw [hhist]
    exact hfind st.history img hf

/-- C7 witness: a failed regeneration of id `x` over a concrete store
leaves the `x` entry's bytes as they were (with the flag cleared, the
optimistically written prompt retained) in both collections. -/
theorem regeneration_failure_witness :
    (handleRegenerate ["src"] (Except.error ⟨"boom", none⟩) "x" "np" 9
        ⟨[⟨"x", "u0", "p0", "c", none, true, 0⟩],
         [⟨"x", "u0", "p0", "c", none, true, 0⟩]⟩).gallery.find?
      (fun a => a.id = "x") = some ⟨"x", "u0", "np", "c", none, false, 0⟩ ∧
    (handleRegenerate ["src"] (Except.error ⟨"boom", none⟩) "x" "np" 9
        ⟨[⟨"x", "u0", "p0", "c", none, true, 0⟩],
         [⟨"x", "u0", "p0", "c", none, true, 0⟩]⟩).history.find?
      (fun a => a.id = "x") = some ⟨"x", "u0", "np", "c", none, false, 0⟩ := by
  have h := regeneration_failure_nondestructive ["src"] (by decide)
    ⟨"boom", none⟩
    ⟨[⟨"x", "u0", "p0", "c", none, true, 0⟩],
     [⟨"x", "u0", "p0", "c", none, true, 0⟩]⟩ "x" "np" 9
  exact ⟨h.2.2.2.2.1 ⟨"x", "u0", "p0", "c", none, true, 0⟩ rfl,
         h.2.2.2.2.2 ⟨"x", "u0", "p0", "c", none, true, 0⟩ rfl⟩

/-- C8, refusal classification: when a response's parts carry no truthy
inline image data, a part with truthy text makes extraction fail with
the refusal error carrying that (first) text — a message distinct from
the generator's other failure messages; when an inline image part is
present, the first one's data is returned. -/
theorem refusal_classification (r : GenResponse) (parts : List RespPart)
    (h : r.parts = some parts) :
    ((∀ p ∈ parts, partImage p = none) →
      ∀ t : String, parts.findSome? partText = some t →
        extractImageFromResponse r = Except.error ⟨refusalMsg t, none⟩) ∧
    (∀ d : String, parts.findSome? partImage = some d →
      extractImageFromResponse r = Except.ok d) ∧
    (∀ t : String, refusalMsg t ≠ "Model did not return an image.") ∧
    (∀ t : String, refusalMsg t ≠ "No content generated") := by
  refine ⟨?_, ?_, refusalMsg_ne_noImage, refusalMsg_ne_noContent⟩
  · intro himg t ht
    have hnone : parts.findSome? partImage = none :=
      List.findSome?_eq_none_iff.mpr himg
    simp [extractImageFromResponse, h, hnone, ht]
  · intro d hd
    simp [extractImageFromResponse, h, hd]

/-- C8 witness: a parts list with only a text part is classified as the
refusal carrying that text; a parts list with an inline image part
yields that image's data. -/
theorem refusal_classification_witness :
    extractImageFromResponse ⟨some [⟨none, some "cannot comply"⟩]⟩ =
      Except.error ⟨refusalMsg "cannot comply", none⟩ ∧
    extractImageFromResponse ⟨some [⟨none, some "note"⟩, ⟨some "IMGDATA", none⟩]⟩ =
      Except.ok "IMGDATA" := by
  constructor
  · exact (refusal_classification ⟨some [⟨none, some "cannot comply"⟩]⟩
      [⟨none, some "cannot comply"⟩] rfl).1 (by decide) "cannot comply" rfl
  · exact (refusal_classification ⟨some [⟨none, some "note"⟩, ⟨some "IMGDATA", none⟩]⟩
      [⟨none, some "note"⟩, ⟨some "IMGDATA", none⟩] rfl).2.1 "IMGDATA" rfl

/-- C9, sequential pacing and progress: for a plan of at least two jobs
the run's event trace alternates attempt and settlement strictly in
plan order (job `i + 1` is attempted only after job `i` settles), a
single 1500 ms pacing delay precedes every attempt except the first
(which no delay precedes), and a progress event `(i + 1, N)` precedes
every attempt `i`. -/
theorem sequential_pacing_progress (gen : Nat → Except JsError String)
    (now : Nat) (prompts : List PromptItem) (st0 : AppState)
    (h : 2 ≤ prompts.length) :
    ((handleGenerate gen now prompts st0).2.filter
        (fun e => isAttempt e || isSettled e) =
      ((List.range prompts.length).map
        (fun j => [RunEvent.attempt j, RunEvent.settled j (genOk gen j)])).flatten) ∧
    ((handleGenerate gen now prompts st0).2.filter
        (fun e => isDelay e || isAttempt e) =
      RunEvent.attempt 0 ::
        ((List.range' 1 (prompts.length - 1)).map
          (fun j => [RunEvent.delayMs 1500, RunEvent.attempt j])).flatten) ∧
    ((handleGenerate gen now prompts st0).2.filter
        (fun e => isProgress e || isAttempt e) =
      ((List.range prompts.length).map
        (fun j => [RunEvent.progress (j + 1) prompts.length,
                   RunEvent.attempt j])).flatten) := by
  have htr := handleGenerate_trace gen now prompts st0
  refine ⟨?_, ?_, ?_⟩
  · rw [htr, traceList_filter_attempt_settled, List.range_eq_range']
  · rw [htr]
    cases prompts with
    | nil => simp at h
    | cons p rest =>
      cases hgen : gen 0 with
      | ok bytes =>
        simp only [traceList, hgen, List.filter_append]
        rw [traceList_filter_delay_attempt gen now (p :: rest).length rest 1
          (by omega)]
        simp [isDelay, isAttempt, isSettled]
      | error e =>
        simp only [traceList, hgen, List.filter_append]
        rw [traceList_filter_delay_attempt gen now (p :: rest).length rest 1
          (by omega)]
        simp [isDelay, isAttempt, isSettled]
  · rw [htr, traceList_filter_progress_attempt, List.range_eq_range']

/-- C9 witness: on a concrete two-job plan whose first job succeeds and
second fails, the trace shows attempt/settle alternation in order, one
delay exactly before the second attempt, and a progress event before
each attempt. -/
theorem sequential_pacing_witness :
    ((handleGenerate wGen 3 wPrompts wState).2.filter
        (fun e => isAttempt e || isSettled e) =
      ((List.range wPrompts.length).map
        (fun j => [RunEvent.attempt j, RunEvent.settled j (genOk wGen j)])).flatten) ∧
    ((handleGenerate wGen 3 wPrompts wState).2.filter
        (fun e => isDelay e || isAttempt e) =
      RunEvent.attempt 0 ::
        ((List.range' 1 (wPrompts.length - 1)).map
          (fun j => [RunEvent.delayMs 1500, RunEvent.attempt j])).flatten) ∧
    ((handleGenerate wGen 3 wPrompts wState).2.filter
        (fun e => isProgress e || isAttempt e) =
      ((List.range wPrompts.length).map
        (fun j => [RunEvent.progress (j + 1) wPrompts.length,
                   RunEvent.attempt j])).flatten) :=
  sequential_pacing_progress wGen 3 wPrompts wState (by decide)

/-- C10, empty-plan behavior: a run over an empty plan always ends with
the run-level all-failed error (status ERROR, the all-failed message)
and publishes nothing — its trace is empty — exactly as a run in which
every job failed, although no individual job was ever attempted. -/
theorem empty_plan_all_failed (gen : Nat → Except JsError String) (now : Nat)
    (st0 : AppState) :
    (handleGenerate gen now [] st0).1.status = GenerationStatus.ERROR ∧
    (handleGenerate gen now [] st0).1.errorMsg = some allFailedMsg ∧
    (handleGenerate gen now [] st0).1.generatedImages = [] ∧
    (handleGenerate gen now [] st0).2 = [] := by
  refine ⟨?_, ?_, ?_, ?_⟩ <;> simp [handleGenerate, seqLoop]


end AContentAI
